import Mathlib

/-!
# Verification of the fundamental-ml gradient-descent trainers

Shallow embedding of the two batch gradient-descent trainers of the
repository (`linear_regression.ipynb` and `logistic_regression.ipynb`),
together with proofs of the specified properties.

Real-valued `numpy` arrays are embedded as functions `Fin m → ℝ`
(vectors) and `Fin m → Fin n → ℝ` (design matrices); floating-point
arithmetic is modelled by exact real arithmetic.  A second, list-based
embedding (`Np` namespace below) models the dynamic shape checks and
1-D broadcasting semantics of `numpy`, which the shape-error properties
are about.
-/

open scoped BigOperators

noncomputable section

/-- `np.mean` of a vector of `m` reals. -/
def Fmean {m : ℕ} (v : Fin m → ℝ) : ℝ := (∑ i, v i) / m

/-- Hyperparameters of `LinearRegression.__init__`: `max_iterations`
and `learning_rate`. -/
structure LinearRegression where
  max_iterations : ℕ
  learning_rate : ℝ

namespace LinearRegression

/-- The body of the `for i in range(self.max_iterations)` loop of
`LinearRegression.fit`, recursing on the remaining iteration count.
Each iteration computes `preds = X @ coef + bias`, records
`loss = 0.5 * np.mean(np.square(preds - y))`, then performs
`coef -= lr / m * X.T @ (preds - y)` and
`bias -= lr * np.mean(preds - y)`. -/
def fitLoop {m n : ℕ} (lr : ℝ) (X : Fin m → Fin n → ℝ) (y : Fin m → ℝ) :
    ℕ → ((Fin n → ℝ) × ℝ) → List ℝ × ((Fin n → ℝ) × ℝ)
  | 0, wb => ([], wb)
  | k + 1, wb =>
      let preds : Fin m → ℝ := fun i => (∑ j, X i j * wb.1 j) + wb.2
      let loss : ℝ := 1 / 2 * Fmean (fun i => (preds i - y i) ^ 2)
      let coef : Fin n → ℝ := fun j => wb.1 j - lr / m * (∑ i, X i j * (preds i - y i))
      let bias : ℝ := wb.2 - lr * Fmean (fun i => preds i - y i)
      let rest := fitLoop lr X y k (coef, bias)
      (loss :: rest.1, rest.2)

/-- `LinearRegression.fit`: zero-initializes `coef` (length `n`) and
`bias`, runs the loop `max_iterations` times, and returns
`(losses, (coef, bias))`. -/
def fit {m n : ℕ} (self : LinearRegression) (X : Fin m → Fin n → ℝ)
    (y : Fin m → ℝ) : List ℝ × ((Fin n → ℝ) × ℝ) :=
  fitLoop self.learning_rate X y self.max_iterations (fun _ => 0, 0)

/-- Spec-side single parameter update, from the spec's words
(§4.1 fit, steps 3–4): subtract `(learning_rate / m) × Xᵗ·(ŷ − y)`
from `w` and `learning_rate × mean(ŷ − y)` from `b`, where
`ŷ = X·w + b`. -/
def specStep {m n : ℕ} (lr : ℝ) (X : Fin m → Fin n → ℝ) (y : Fin m → ℝ)
    (wb : (Fin n → ℝ) × ℝ) : (Fin n → ℝ) × ℝ :=
  let yhat : Fin m → ℝ := fun i => (∑ j, X i j * wb.1 j) + wb.2
  (fun j => wb.1 j - lr / m * (∑ i, X i j * (yhat i - y i)),
   wb.2 - lr * Fmean (fun i => yhat i - y i))

/-- Spec-side loss at a parameter state, from the spec's words
(§4.1 fit, step 2): `0.5 × mean((ŷ − y)²)` with `ŷ = X·w + b`. -/
def specLoss {m n : ℕ} (X : Fin m → Fin n → ℝ) (y : Fin m → ℝ)
    (wb : (Fin n → ℝ) × ℝ) : ℝ :=
  1 / 2 * Fmean (fun i => (((∑ j, X i j * wb.1 j) + wb.2) - y i) ^ 2)

/-- The spec-side parameter state after `k` updates, starting from the
zero-initialized state. -/
def specState {m n : ℕ} (lr : ℝ) (X : Fin m → Fin n → ℝ) (y : Fin m → ℝ)
    (k : ℕ) : (Fin n → ℝ) × ℝ :=
  (specStep lr X y)^[k] (fun _ => 0, 0)

/-- The residual vector `ŷ − y` of the linear trainer at a parameter
state. -/
def resid {m n : ℕ} (X : Fin m → Fin n → ℝ) (y : Fin m → ℝ)
    (wb : (Fin n → ℝ) × ℝ) : Fin m → ℝ :=
  fun i => ((∑ j, X i j * wb.1 j) + wb.2) - y i

end LinearRegression

/-- Hyperparameters of `LogisticRegression.__init__`: `max_iterations`
and `learning_rate`. -/
structure LogisticRegression where
  max_iterations : ℕ
  learning_rate : ℝ

namespace LogisticRegression

/-- `LogisticRegression.sigmoid`, as written in the source:
`1 / (1 + np.exp(-z))`. -/
def sigmoid (z : ℝ) : ℝ := 1 / (1 + Real.exp (-z))

/-- Elementwise application of `sigmoid` to a `numpy` vector. -/
def sigmoidV {m : ℕ} (z : Fin m → ℝ) : Fin m → ℝ := fun i => sigmoid (z i)

/-- The body of the `for i in range(self.max_iterations)` loop of
`LogisticRegression.fit`: each iteration computes
`preds = sigmoid(X @ coef + bias)`, records the negative log-likelihood
`loss = -np.mean(y * np.log(preds) + (1 - y) * np.log(1 - preds))`,
then performs `coef -= lr / m * X.T @ (preds - y)` and
`bias -= lr * np.mean(preds - y)`. -/
def fitLoop {m n : ℕ} (lr : ℝ) (X : Fin m → Fin n → ℝ) (y : Fin m → ℝ) :
    ℕ → ((Fin n → ℝ) × ℝ) → List ℝ × ((Fin n → ℝ) × ℝ)
  | 0, wb => ([], wb)
  | k + 1, wb =>
      let preds : Fin m → ℝ := sigmoidV (fun i => (∑ j, X i j * wb.1 j) + wb.2)
      let loss : ℝ :=
        -Fmean (fun i => y i * Real.log (preds i) + (1 - y i) * Real.log (1 - preds i))
      let coef : Fin n → ℝ := fun j => wb.1 j - lr / m * (∑ i, X i j * (preds i - y i))
      let bias : ℝ := wb.2 - lr * Fmean (fun i => preds i - y i)
      let rest := fitLoop lr X y k (coef, bias)
      (loss :: rest.1, rest.2)

/-- `LogisticRegression.fit`: zero-initializes `coef` (length `n`) and
`bias`, runs the loop `max_iterations` times, and returns
`(losses, (coef, bias))`. -/
def fit {m n : ℕ} (self : LogisticRegression) (X : Fin m → Fin n → ℝ)
    (y : Fin m → ℝ) : List ℝ × ((Fin n → ℝ) × ℝ) :=
  fitLoop self.learning_rate X y self.max_iterations (fun _ => 0, 0)

/-- Spec-side single parameter update of the logistic trainer, from the
spec's words (§4.2 fit, steps 3–4): subtract
`(learning_rate / m) × Xᵗ·(ŷ − y)` from `w` and
`learning_rate × mean(ŷ − y)` from `b`, where `ŷ = sigmoid(X·w + b)`. -/
def specStep {m n : ℕ} (lr : ℝ) (X : Fin m → Fin n → ℝ) (y : Fin m → ℝ)
    (wb : (Fin n → ℝ) × ℝ) : (Fin n → ℝ) × ℝ :=
  (fun j => wb.1 j - lr / m *
      (∑ i, X i j * (sigmoidV (fun i => (∑ j, X i j * wb.1 j) + wb.2) i - y i)),
   wb.2 - lr * Fmean (fun i => sigmoidV (fun i => (∑ j, X i j * wb.1 j) + wb.2) i - y i))

/-- Spec-side logistic loss at a parameter state, from the spec's words
(§4.2 fit, step 2): `−mean(y·log(ŷ) + (1−y)·log(1−ŷ))` with
`ŷ = sigmoid(X·w + b)`. -/
def specLoss {m n : ℕ} (X : Fin m → Fin n → ℝ) (y : Fin m → ℝ)
    (wb : (Fin n → ℝ) × ℝ) : ℝ :=
  -Fmean (fun i =>
    y i * Real.log (sigmoidV (fun i => (∑ j, X i j * wb.1 j) + wb.2) i) +
      (1 - y i) * Real.log (1 - sigmoidV (fun i => (∑ j, X i j * wb.1 j) + wb.2) i))

/-- The spec-side logistic parameter state after `k` updates, starting
from the zero-initialized state. -/
def specState {m n : ℕ} (lr : ℝ) (X : Fin m → Fin n → ℝ) (y : Fin m → ℝ)
    (k : ℕ) : (Fin n → ℝ) × ℝ :=
  (specStep lr X y)^[k] (fun _ => 0, 0)

end LogisticRegression

/-- The common parameter update of both trainers, written from the
spec's words as a function of the residual vector `r = ŷ − y`
(§4.2 step 3): `w ← w − (learning_rate/m)·Xᵗ·r`,
`b ← b − learning_rate·mean(r)`. -/
def updateFromResidual {m n : ℕ} (lr : ℝ) (X : Fin m → Fin n → ℝ)
    (wb : (Fin n → ℝ) × ℝ) (r : Fin m → ℝ) : (Fin n → ℝ) × ℝ :=
  (fun j => wb.1 j - lr / m * (∑ i, X i j * r i), wb.2 - lr * Fmean r)

/-- Squared Frobenius norm of the design matrix `X`. -/
def frobSq {m n : ℕ} (X : Fin m → Fin n → ℝ) : ℝ := ∑ i, ∑ j, X i j ^ 2

/-- A learning-rate bound, depending only on `X`, below which each
gradient step of the linear trainer cannot increase the loss. -/
def lrBound {m n : ℕ} (X : Fin m → Fin n → ℝ) : ℝ := m / (frobSq X + m)

namespace Np

/-- Dot product of two equal-length numpy 1-D arrays. -/
def dot (a b : List ℝ) : ℝ := (List.zipWith (fun x t => x * t) a b).sum

/-- `X @ v` for 2-D `X` and 1-D `v`: requires every row of `X` to have
length `v.length`; numpy raises a `ValueError` otherwise (no
broadcasting on matmul core dimensions). -/
def matVec (X : List (List ℝ)) (v : List ℝ) : Except String (List ℝ) :=
  if X.all (fun row => row.length = v.length) then
    Except.ok (X.map (fun row => dot row v))
  else Except.error "matmul: input operand has a dimension mismatch"

/-- numpy elementwise binary operation on 1-D arrays with broadcasting:
equal lengths operate elementwise; a length-1 operand is silently
stretched to the other length; any other mismatch raises. -/
def elemwise (f : ℝ → ℝ → ℝ) (a b : List ℝ) : Except String (List ℝ) :=
  if a.length = b.length then Except.ok (List.zipWith f a b)
  else
    match a, b with
    | [x], b => Except.ok (b.map (fun t => f x t))
    | a, [t] => Except.ok (a.map (fun x => f x t))
    | _, _ => Except.error "operands could not be broadcast together"

/-- Broadcasting subtraction `a - b`. -/
def sub (a b : List ℝ) : Except String (List ℝ) := elemwise (fun x t => x - t) a b

/-- Broadcasting addition `a + b`. -/
def add (a b : List ℝ) : Except String (List ℝ) := elemwise (fun x t => x + t) a b

/-- Broadcasting multiplication `a * b`. -/
def mul (a b : List ℝ) : Except String (List ℝ) := elemwise (fun x t => x * t) a b

/-- Array plus scalar (numpy scalar broadcasting, never fails). -/
def addScalar (a : List ℝ) (c : ℝ) : List ℝ := a.map (fun x => x + c)

/-- `np.mean` of a 1-D array. -/
def mean (a : List ℝ) : ℝ := a.sum / a.length

/-- `X.T` of a rectangular numpy 2-D array with column count
`(X.headD []).length`: entry `(j, i)` is entry `(i, j)` of `X`. -/
def transpose (X : List (List ℝ)) : List (List ℝ) :=
  (List.range (X.headD []).length).map (fun j => X.map (fun row => row.getD j 0))

end Np

/-- Runtime state of a `LinearRegression` instance under numpy
semantics: the hyperparameters, plus `coef` and `bias` when they have
been assigned (`params = none` models the attributes not existing
before `fit`, where reading them raises `AttributeError`). -/
structure LinearRegressionNp where
  max_iterations : ℕ
  learning_rate : ℝ
  params : Option (List ℝ × ℝ)

namespace LinearRegressionNp

/-- The loop of `LinearRegression.fit` under numpy shape semantics.
The first component of the result is the parameter state reached when
the loop stops — the source mutates `self.coef`/`self.bias` in place,
so on a raised shape error it is the state at the moment of the raise;
the second component is the returned value or the error. -/
def fitLoop (lr : ℝ) (mRows : ℕ) (X : List (List ℝ)) (y : List ℝ) :
    ℕ → List ℝ × ℝ → List ℝ →
      (List ℝ × ℝ) × Except String (List ℝ × (List ℝ × ℝ))
  | 0, wb, losses => (wb, Except.ok (losses.reverse, wb))
  | k + 1, wb, losses =>
      match Np.matVec X wb.1 with
      | Except.error e => (wb, Except.error e)
      | Except.ok xw =>
        match Np.sub (Np.addScalar xw wb.2) y with
        | Except.error e => (wb, Except.error e)
        | Except.ok r =>
          let loss := 1 / 2 * Np.mean (r.map (fun t => t ^ 2))
          match Np.matVec (Np.transpose X) r with
          | Except.error e => (wb, Except.error e)
          | Except.ok g =>
            match Np.sub wb.1 (g.map (fun t => lr / mRows * t)) with
            | Except.error e => (wb, Except.error e)
            | Except.ok coef =>
              fitLoop lr mRows X y k (coef, wb.2 - lr * Np.mean r)
                (loss :: losses)

/-- `LinearRegression.fit` under numpy semantics: reads `m, n` from
`X.shape`, assigns the zero-initialized `coef`/`bias` at entry (the
source's `initialize`), loops, and returns the mutated instance —
whose parameters are assigned even when a shape error is raised —
together with the returned value or the error. -/
def fit (self : LinearRegressionNp) (X : List (List ℝ)) (y : List ℝ) :
    LinearRegressionNp × Except String (List ℝ × (List ℝ × ℝ)) :=
  ({ self with params := some (fitLoop self.learning_rate X.length X y
      self.max_iterations (List.replicate (X.headD []).length 0, 0) []).1 },
   (fitLoop self.learning_rate X.length X y self.max_iterations
      (List.replicate (X.headD []).length 0, 0) []).2)

/-- `LinearRegression.predict` under numpy semantics: reading `coef`
before `fit` has assigned it raises `AttributeError`. -/
def predict (self : LinearRegressionNp) (X : List (List ℝ)) :
    Except String (List ℝ) :=
  match self.params with
  | none => Except.error "AttributeError: LinearRegression object has no attribute coef"
  | some wb => do
      let xw ← Np.matVec X wb.1
      Except.ok (Np.addScalar xw wb.2)

end LinearRegressionNp

/-- Runtime state of a `LogisticRegression` instance under numpy
semantics. -/
structure LogisticRegressionNp where
  max_iterations : ℕ
  learning_rate : ℝ
  params : Option (List ℝ × ℝ)

namespace LogisticRegressionNp

/-- The loop of `LogisticRegression.fit` under numpy shape semantics,
with the same error-path state convention as the linear loop: the
parameter state reached when the loop stops is returned alongside the
value or error. -/
def fitLoop (lr : ℝ) (mRows : ℕ) (X : List (List ℝ)) (y : List ℝ) :
    ℕ → List ℝ × ℝ → List ℝ →
      (List ℝ × ℝ) × Except String (List ℝ × (List ℝ × ℝ))
  | 0, wb, losses => (wb, Except.ok (losses.reverse, wb))
  | k + 1, wb, losses =>
      match Np.matVec X wb.1 with
      | Except.error e => (wb, Except.error e)
      | Except.ok xw =>
        match Np.mul y (((Np.addScalar xw wb.2).map
            LogisticRegression.sigmoid).map Real.log) with
        | Except.error e => (wb, Except.error e)
        | Except.ok t1 =>
          match Np.mul (y.map (fun v => 1 - v)) (((Np.addScalar xw wb.2).map
              LogisticRegression.sigmoid).map (fun p => Real.log (1 - p))) with
          | Except.error e => (wb, Except.error e)
          | Except.ok t2 =>
            match Np.add t1 t2 with
            | Except.error e => (wb, Except.error e)
            | Except.ok s =>
              let loss := -(Np.mean s)
              match Np.sub ((Np.addScalar xw wb.2).map
                  LogisticRegression.sigmoid) y with
              | Except.error e => (wb, Except.error e)
              | Except.ok r =>
                match Np.matVec (Np.transpose X) r with
                | Except.error e => (wb, Except.error e)
                | Except.ok g =>
                  match Np.sub wb.1 (g.map (fun t => lr / mRows * t)) with
                  | Except.error e => (wb, Except.error e)
                  | Except.ok coef =>
                    fitLoop lr mRows X y k (coef, wb.2 - lr * Np.mean r)
                      (loss :: losses)

/-- `LogisticRegression.fit` under numpy semantics, assigning the
zero-initialized parameters at entry exactly as the linear trainer. -/
def fit (self : LogisticRegressionNp) (X : List (List ℝ)) (y : List ℝ) :
    LogisticRegressionNp × Except String (List ℝ × (List ℝ × ℝ)) :=
  ({ self with params := some (fitLoop self.learning_rate X.length X y
      self.max_iterations (List.replicate (X.headD []).length 0, 0) []).1 },
   (fitLoop self.learning_rate X.length X y self.max_iterations
      (List.replicate (X.headD []).length 0, 0) []).2)

/-- `LogisticRegression.predict` under numpy semantics. -/
def predict (self : LogisticRegressionNp) (X : List (List ℝ)) :
    Except String (List ℝ) :=
  match self.params with
  | none => Except.error "AttributeError: LogisticRegression object has no attribute coef"
  | some wb => do
      let xw ← Np.matVec X wb.1
      Except.ok ((Np.addScalar xw wb.2).map LogisticRegression.sigmoid)

end LogisticRegressionNp

/-! ### Concrete inputs used by the closed witness theorems -/

/-- A concrete 1×1 design matrix. -/
def Xex : Fin 1 → Fin 1 → ℝ := fun _ _ => 2

/-- A concrete length-1 target vector. -/
def yex : Fin 1 → ℝ := fun _ => 1

/-- A concrete 5×1 list design matrix. -/
def XexNp : List (List ℝ) := [[1], [1], [1], [1], [1]]

/-- A concrete length-1 list target vector (numpy silently broadcasts
it against 5 predictions). -/
def yexNp : List ℝ := [1]

/-- A concrete 2×1 list design matrix. -/
def XexNp2 : List (List ℝ) := [[1], [2]]

/-- A concrete length-3 list target vector. -/
def yexNp3 : List ℝ := [1, 2, 3]

/-! ### Theorems -/

namespace LinearRegression

/-- The fit loop is exactly the iteration of the spec's update:
starting from any state, the recorded losses are the spec losses of the
successive spec states, and the final state is the `k`-fold spec
update. -/
theorem linFitLoop_eq {m n : ℕ} (lr : ℝ) (X : Fin m → Fin n → ℝ) (y : Fin m → ℝ) :
    ∀ (k : ℕ) (wb : (Fin n → ℝ) × ℝ),
      fitLoop lr X y k wb =
        ((List.range k).map (fun i => specLoss X y ((specStep lr X y)^[i] wb)),
         (specStep lr X y)^[k] wb) := by
  intro k
  induction k with
  | zero => intro wb; rfl
  | succ k ih =>
      intro wb
      have h1 : fitLoop lr X y (k + 1) wb =
          (specLoss X y wb :: (fitLoop lr X y k (specStep lr X y wb)).1,
           (fitLoop lr X y k (specStep lr X y wb)).2) := rfl
      rw [h1, ih, List.range_succ_eq_map]
      simp [Function.comp_def, Function.iterate_succ_apply]

/-- `fit` returns the spec trace and the spec final state. -/
theorem linFit_eq {m n : ℕ} (self : LinearRegression) (X : Fin m → Fin n → ℝ)
    (y : Fin m → ℝ) :
    self.fit X y =
      ((List.range self.max_iterations).map
          (fun i => specLoss X y (specState self.learning_rate X y i)),
       specState self.learning_rate X y self.max_iterations) :=
  linFitLoop_eq self.learning_rate X y self.max_iterations (fun _ => 0, 0)

end LinearRegression

namespace LogisticRegression

/-- The logistic fit loop is exactly the iteration of the spec's
update, and records the spec loss of each successive state. -/
theorem logFitLoop_eq {m n : ℕ} (lr : ℝ) (X : Fin m → Fin n → ℝ) (y : Fin m → ℝ) :
    ∀ (k : ℕ) (wb : (Fin n → ℝ) × ℝ),
      fitLoop lr X y k wb =
        ((List.range k).map (fun i => specLoss X y ((specStep lr X y)^[i] wb)),
         (specStep lr X y)^[k] wb) := by
  intro k
  induction k with
  | zero => intro wb; rfl
  | succ k ih =>
      intro wb
      have h1 : fitLoop lr X y (k + 1) wb =
          (specLoss X y wb :: (fitLoop lr X y k (specStep lr X y wb)).1,
           (fitLoop lr X y k (specStep lr X y wb)).2) := rfl
      rw [h1, ih, List.range_succ_eq_map]
      simp [Function.comp_def, Function.iterate_succ_apply]

/-- `fit` returns the spec trace and the spec final state. -/
theorem logFit_eq {m n : ℕ} (self : LogisticRegression) (X : Fin m → Fin n → ℝ)
    (y : Fin m → ℝ) :
    self.fit X y =
      ((List.range self.max_iterations).map
          (fun i => specLoss X y (specState self.learning_rate X y i)),
       specState self.learning_rate X y self.max_iterations) :=
  logFitLoop_eq self.learning_rate X y self.max_iterations (fun _ => 0, 0)

end LogisticRegression

/-- C1: for every design matrix X (m×n, m ≥ 1, n ≥ 1), target vector y
of length m, positive learning rate and iteration count, each iteration
of the linear trainer's fit, starting from w = 0 and b = 0, computes
ŷ = X·w + b, appends the loss 0.5 × mean((ŷ − y)²) to the trace, then
replaces w with w − (learning_rate/m)·Xᵗ·(ŷ − y) and b with
b − learning_rate·mean(ŷ − y), in that order: the trace lists the spec
losses of the successive spec states (the loss at each state is
recorded before that state is updated), and the returned parameters are
the iterated spec update of the zero state. -/
theorem C1_linear_fit_iteration {m n : ℕ} (self : LinearRegression)
    (X : Fin m → Fin n → ℝ) (y : Fin m → ℝ)
    (_hm : 1 ≤ m) (_hn : 1 ≤ n) (_hlr : 0 < self.learning_rate)
    (_hit : 0 < self.max_iterations) :
    self.fit X y =
      ((List.range self.max_iterations).map
          (fun i => LinearRegression.specLoss X y
              (LinearRegression.specState self.learning_rate X y i)),
       LinearRegression.specState self.learning_rate X y self.max_iterations) :=
  LinearRegression.linFit_eq self X y

/-- Witness for C1 at a concrete 1×1 instance with one iteration and
learning rate 1/2. -/
theorem C1_witness :
    ((1:ℕ) ≤ 1 ∧ (0:ℝ) < 1 / 2 ∧ 0 < (1:ℕ)) ∧
    (LinearRegression.mk 1 (1 / 2)).fit Xex yex =
      ((List.range 1).map
          (fun i => LinearRegression.specLoss Xex yex
              (LinearRegression.specState (1 / 2) Xex yex i)),
       LinearRegression.specState (1 / 2) Xex yex 1) :=
  ⟨⟨le_refl 1, by norm_num, Nat.one_pos⟩,
   C1_linear_fit_iteration (LinearRegression.mk 1 (1 / 2)) Xex yex
     (le_refl 1) (le_refl 1) (by norm_num) Nat.one_pos⟩

/-- C2: for every valid X and y and for both trainers, fit performs
exactly max_iterations update iterations with no early stopping or
convergence check, and returns a loss trace whose length equals
max_iterations, together with the final weight vector and final
bias. -/
theorem C2_trace_length_eq_max_iterations :
    (∀ (m n : ℕ) (self : LinearRegression) (X : Fin m → Fin n → ℝ) (y : Fin m → ℝ),
        (self.fit X y).1.length = self.max_iterations) ∧
    (∀ (m n : ℕ) (self : LogisticRegression) (X : Fin m → Fin n → ℝ) (y : Fin m → ℝ),
        (self.fit X y).1.length = self.max_iterations) := by
  constructor
  · intro m n self X y
    rw [LinearRegression.linFit_eq]
    simp
  · intro m n self X y
    rw [LogisticRegression.logFit_eq]
    simp

/-- C3: for every valid X and y, a trainer constructed with
max_iterations = 0 whose fit(X, y) is called returns an empty loss
trace, a weight vector equal to the zero vector of length n, and bias 0
(the zero-initialized values, unchanged) — for both trainers. -/
theorem C3_zero_iterations_fallback :
    (∀ (m n : ℕ) (self : LinearRegression) (X : Fin m → Fin n → ℝ) (y : Fin m → ℝ),
        self.max_iterations = 0 →
        self.fit X y = ([], fun _ => 0, 0)) ∧
    (∀ (m n : ℕ) (self : LogisticRegression) (X : Fin m → Fin n → ℝ) (y : Fin m → ℝ),
        self.max_iterations = 0 →
        self.fit X y = ([], fun _ => 0, 0)) := by
  constructor
  · intro m n self X y h
    unfold LinearRegression.fit
    rw [h]
    rfl
  · intro m n self X y h
    unfold LogisticRegression.fit
    rw [h]
    rfl

/-- Witness for C3 at concrete zero-iteration trainers. -/
theorem C3_witness :
    (LinearRegression.mk 0 1).fit Xex yex = ([], fun _ => 0, 0) ∧
    (LogisticRegression.mk 0 1).fit Xex yex = ([], fun _ => 0, 0) :=
  ⟨C3_zero_iterations_fallback.1 1 1 (LinearRegression.mk 0 1) Xex yex rfl,
   C3_zero_iterations_fallback.2 1 1 (LogisticRegression.mk 0 1) Xex yex rfl⟩

/-- C5, amended: for every model instance that has never entered fit
(UNINITIALIZED: `params = none`, i.e. the `coef`/`bias` attributes
were never assigned), calling predict(X) fails with an error
(`AttributeError`) rather than silently producing predictions from
uninitialized (implicitly zero) parameters — for both trainers.  The
original claim also covered instances whose fit was entered but
aborted by a raised shape error; there the source's `initialize` has
already assigned the zero parameters at fit entry and predict silently
returns X·0 + 0, refuting the claim (see `C5_counterexample`). -/
theorem C5_predict_before_fit_fails :
    (∀ (self : LinearRegressionNp) (X : List (List ℝ)), self.params = none →
        ∃ e, self.predict X = Except.error e) ∧
    (∀ (self : LogisticRegressionNp) (X : List (List ℝ)), self.params = none →
        ∃ e, self.predict X = Except.error e) := by
  constructor
  · intro self X h
    refine ⟨"AttributeError: LinearRegression object has no attribute coef", ?_⟩
    simp [LinearRegressionNp.predict, h]
  · intro self X h
    refine ⟨"AttributeError: LogisticRegression object has no attribute coef", ?_⟩
    simp [LogisticRegressionNp.predict, h]

/-- Witness for C5 on concrete never-fitted instances. -/
theorem C5_witness :
    ((LinearRegressionNp.mk 1 1 none).params = none ∧
      ∃ e, (LinearRegressionNp.mk 1 1 none).predict XexNp = Except.error e) ∧
    ((LogisticRegressionNp.mk 1 1 none).params = none ∧
      ∃ e, (LogisticRegressionNp.mk 1 1 none).predict XexNp = Except.error e) :=
  ⟨⟨rfl, C5_predict_before_fit_fails.1 (LinearRegressionNp.mk 1 1 none) XexNp rfl⟩,
   ⟨rfl, C5_predict_before_fit_fails.2 (LogisticRegressionNp.mk 1 1 none) XexNp rfl⟩⟩

/-- C6: the logistic trainer's sigmoid computes g(z) = 1/(1 + e^(−z))
elementwise, in the numerically-stable form whose denominator stays in
(1, 2] for z ≥ 0 (so nothing grows with z for large positive z),
whereas the rejected form e^z/(1 + e^z) contains the unbounded
intermediate e^z. -/
theorem C6_sigmoid_stable_form :
    (∀ z : ℝ, LogisticRegression.sigmoid z = 1 / (1 + Real.exp (-z))) ∧
    (∀ (m : ℕ) (v : Fin m → ℝ) (i : Fin m),
        LogisticRegression.sigmoidV v i = 1 / (1 + Real.exp (-v i))) ∧
    (∀ z : ℝ, 0 ≤ z → 1 < 1 + Real.exp (-z) ∧ 1 + Real.exp (-z) ≤ 2) ∧
    (∀ M : ℝ, ∃ z : ℝ, M < Real.exp z) := by
  refine ⟨fun z => rfl, fun m v i => rfl, fun z hz => ?_, fun M => ?_⟩
  · have h1 : 0 < Real.exp (-z) := Real.exp_pos _
    have h2 : Real.exp (-z) ≤ 1 := Real.exp_le_one_iff.2 (by linarith)
    constructor <;> linarith
  · refine ⟨Real.log (|M| + 1), ?_⟩
    rw [Real.exp_log (by positivity)]
    linarith [le_abs_self M]

/-- Witness for C6 at z = 1. -/
theorem C6_witness :
    (0:ℝ) ≤ 1 ∧ 1 < 1 + Real.exp (-(1:ℝ)) ∧ 1 + Real.exp (-(1:ℝ)) ≤ 2 :=
  ⟨by norm_num, C6_sigmoid_stable_form.2.2.1 1 (by norm_num)⟩

/-- C7: one iteration of the logistic trainer's fit performs, as a
function of its residual vector ŷ − y, exactly the same parameter
update as one iteration of the linear trainer's fit: both factor
through the single function `updateFromResidual`
(w ← w − (lr/m)·Xᵗ·r, b ← b − lr·mean(r)) applied to their respective
residuals. -/
theorem C7_update_identical_in_residual (m n : ℕ) (lr : ℝ)
    (X : Fin m → Fin n → ℝ) (yLin yLog : Fin m → ℝ) (wb : (Fin n → ℝ) × ℝ) :
    (LinearRegression.fitLoop lr X yLin 1 wb).2 =
        updateFromResidual lr X wb (LinearRegression.resid X yLin wb) ∧
      (LogisticRegression.fitLoop lr X yLog 1 wb).2 =
        updateFromResidual lr X wb
          (fun i => LogisticRegression.sigmoidV
              (fun i => (∑ j, X i j * wb.1 j) + wb.2) i - yLog i) :=
  ⟨rfl, rfl⟩

/-- The mean of a constant vector with at least one entry is that
constant. -/
theorem Fmean_const {m : ℕ} (hm : 1 ≤ m) (c : ℝ) :
    Fmean (fun _ : Fin m => c) = c := by
  unfold Fmean
  rw [Finset.sum_const, Finset.card_univ, Fintype.card_fin, nsmul_eq_mul]
  have hm0 : (m : ℝ) ≠ 0 := Nat.cast_ne_zero.2 (by omega)
  field_simp

/-- C10: for every m×n design matrix X and every binary target vector y
of length m, the logistic trainer's fit with max_iterations ≥ 1
produces a loss trace whose first element equals ln 2, independent of X
and y: at the zero initialization every prediction is
sigmoid(0) = 1/2, and the negative log-likelihood collapses to log 2. -/
theorem C10_first_logistic_loss_is_log_two {m n : ℕ} (self : LogisticRegression)
    (X : Fin m → Fin n → ℝ) (y : Fin m → ℝ)
    (hm : 1 ≤ m) (hit : 1 ≤ self.max_iterations)
    (_hy : ∀ i, y i = 0 ∨ y i = 1) :
    (self.fit X y).1.head? = some (Real.log 2) := by
  obtain ⟨k, hk⟩ : ∃ k, self.max_iterations = k + 1 :=
    ⟨self.max_iterations - 1, (Nat.succ_pred_eq_of_pos hit).symm⟩
  rw [LogisticRegression.logFit_eq, hk, List.range_succ_eq_map]
  simp only [List.map_cons, List.head?_cons, Option.some.injEq]
  unfold LogisticRegression.specState
  rw [Function.iterate_zero_apply]
  unfold LogisticRegression.specLoss LogisticRegression.sigmoidV
    LogisticRegression.sigmoid
  simp only [mul_zero, Finset.sum_const_zero, zero_add, add_zero, neg_zero,
    Real.exp_zero]
  have hconst : (fun i : Fin m =>
        y i * Real.log (1 / (1 + 1)) + (1 - y i) * Real.log (1 - 1 / (1 + 1)))
      = fun _ : Fin m => Real.log (1 / 2) := by
    funext i
    have h12 : (1:ℝ) - 1 / (1 + 1) = 1 / 2 := by norm_num
    have h12b : (1:ℝ) / (1 + 1) = 1 / 2 := by norm_num
    rw [h12, h12b]
    ring
  rw [hconst, Fmean_const hm, one_div, Real.log_inv, neg_neg]

/-- Witness for C10 on a concrete 1×1 instance with two iterations. -/
theorem C10_witness :
    ((1:ℕ) ≤ 1 ∧ (1:ℕ) ≤ 2) ∧
    ((LogisticRegression.mk 2 1).fit Xex yex).1.head? = some (Real.log 2) :=
  ⟨⟨le_refl 1, by norm_num⟩,
   C10_first_logistic_loss_is_log_two (LogisticRegression.mk 2 1) Xex yex
     (le_refl 1) (by norm_num) (fun i => Or.inr rfl)⟩

/-- The sigmoid is strictly positive. -/
theorem LogisticRegression.sigmoid_pos (z : ℝ) : 0 < LogisticRegression.sigmoid z := by
  unfold LogisticRegression.sigmoid
  have h := Real.exp_pos (-z)
  exact div_pos one_pos (by linarith)

/-- The sigmoid is strictly below one. -/
theorem LogisticRegression.sigmoid_lt_one (z : ℝ) :
    LogisticRegression.sigmoid z < 1 := by
  unfold LogisticRegression.sigmoid
  have h := Real.exp_pos (-z)
  rw [div_lt_one (by linarith)]
  linarith

/-- C8: for every fitted logistic model and every matrix X with m ≥ 1
rows and column count equal to the trained feature count, predict(X)
returns sigmoid(X·w + b): a vector of length exactly m, each entry
strictly between 0 and 1. -/
theorem C8_logistic_predict_contract (self : LogisticRegressionNp)
    (coef : List ℝ) (bias : ℝ) (X : List (List ℝ))
    (hp : self.params = some (coef, bias))
    (hrect : ∀ row ∈ X, row.length = coef.length)
    (_hm : 1 ≤ X.length) :
    self.predict X =
      Except.ok (X.map (fun row =>
        LogisticRegression.sigmoid (Np.dot row coef + bias))) ∧
    ∀ ys, self.predict X = Except.ok ys →
      ys.length = X.length ∧ ∀ u ∈ ys, 0 < u ∧ u < 1 := by
  have hall : X.all (fun row => row.length = coef.length) = true := by
    rw [List.all_eq_true]
    intro row hrow
    exact decide_eq_true (hrect row hrow)
  have hmv : Np.matVec X coef = Except.ok (X.map (fun row => Np.dot row coef)) := by
    unfold Np.matVec
    simp [hall]
  have hpred : self.predict X =
      Except.ok (X.map (fun row =>
        LogisticRegression.sigmoid (Np.dot row coef + bias))) := by
    unfold LogisticRegressionNp.predict
    rw [hp]
    dsimp only
    rw [hmv]
    show Except.ok (((X.map (fun row => Np.dot row coef)).map (fun x => x + bias)).map
      LogisticRegression.sigmoid) = _
    rw [List.map_map, List.map_map]
    rfl
  refine ⟨hpred, fun ys hys => ?_⟩
  rw [hpred] at hys
  obtain rfl : X.map (fun row =>
      LogisticRegression.sigmoid (Np.dot row coef + bias)) = ys := by
    injection hys
  refine ⟨List.length_map _ _, fun u hu => ?_⟩
  obtain ⟨row, hrow, rfl⟩ := List.mem_map.1 hu
  exact ⟨LogisticRegression.sigmoid_pos _, LogisticRegression.sigmoid_lt_one _⟩

/-- Witness for C8 on a concrete fitted model and 1×1 input. -/
theorem C8_witness :
    (LogisticRegressionNp.mk 1 1 (some ([1], 0))).predict [[2]] =
      Except.ok ([[(2:ℝ)]].map (fun row =>
        LogisticRegression.sigmoid (Np.dot row [1] + 0))) :=
  (C8_logistic_predict_contract (LogisticRegressionNp.mk 1 1 (some ([1], 0)))
    [1] 0 [[2]] rfl (by intro row hrow; simp at hrow; simp [hrow]) (by norm_num)).1

/-- `Except.ok` feeds through `bind`. -/
theorem exceptBind_ok {α β : Type} (a : α) (f : α → Except String β) :
    (Except.ok a : Except String α) >>= f = f a := rfl

/-- `Except.error` short-circuits `bind`. -/
theorem exceptBind_error {α β : Type} (e : String) (f : α → Except String β) :
    (Except.error e : Except String α) >>= f = Except.error e := rfl

/-- `matVec` succeeds exactly on compatible shapes, returning the
row-wise dot products. -/
theorem Np.matVec_ok (X : List (List ℝ)) (v : List ℝ)
    (h : ∀ row ∈ X, row.length = v.length) :
    Np.matVec X v = Except.ok (X.map (fun row => Np.dot row v)) := by
  unfold Np.matVec
  have hall : X.all (fun r => r.length = v.length) = true := by
    rw [List.all_eq_true]
    intro r hr
    exact decide_eq_true (h r hr)
  rw [if_pos hall]

/-- `matVec` fails when some row disagrees with the vector length. -/
theorem Np.matVec_error (X : List (List ℝ)) (v row : List ℝ)
    (hrow : row ∈ X) (hlen : row.length ≠ v.length) :
    Np.matVec X v = Except.error "matmul: input operand has a dimension mismatch" := by
  unfold Np.matVec
  have hc : ¬(X.all (fun r => r.length = v.length) = true) := by
    rw [List.all_eq_true]
    intro hall
    exact hlen (of_decide_eq_true (hall row hrow))
  rw [if_neg hc]

/-- Broadcasting fails when the lengths differ and neither operand has
length one. -/
theorem Np.elemwise_error (f : ℝ → ℝ → ℝ) (a b : List ℝ)
    (hab : a.length ≠ b.length) (ha : a.length ≠ 1) (hb : b.length ≠ 1) :
    Np.elemwise f a b = Except.error "operands could not be broadcast together" := by
  unfold Np.elemwise
  rw [if_neg hab]
  rcases a with _ | ⟨x, _ | ⟨x2, as⟩⟩
  · rcases b with _ | ⟨t, _ | ⟨t2, bs⟩⟩
    · exact absurd rfl hab
    · exact absurd rfl hb
    · rfl
  · exact absurd rfl ha
  · rcases b with _ | ⟨t, _ | ⟨t2, bs⟩⟩
    · rfl
    · exact absurd rfl hb
    · rfl

/-- A length-one left operand broadcasts over the right operand. -/
theorem Np.elemwise_single_left (f : ℝ → ℝ → ℝ) (x : ℝ) (b : List ℝ)
    (hb : b.length ≠ 1) :
    Np.elemwise f [x] b = Except.ok (b.map (fun t => f x t)) := by
  unfold Np.elemwise
  rw [if_neg (by simpa using fun h => hb h.symm)]
  rcases b with _ | ⟨t, _ | ⟨t2, bs⟩⟩
  · rfl
  · exact absurd rfl hb
  · rfl

/-- A length-one right operand broadcasts over the left operand. -/
theorem Np.elemwise_single_right (f : ℝ → ℝ → ℝ) (a : List ℝ) (t : ℝ)
    (ha : a.length ≠ 1) :
    Np.elemwise f a [t] = Except.ok (a.map (fun x => f x t)) := by
  unfold Np.elemwise
  rw [if_neg (by simpa using ha)]
  rcases a with _ | ⟨x, _ | ⟨x2, as⟩⟩
  · rfl
  · exact absurd rfl ha
  · rfl

/-- Every row of the transpose has length `X.length`. -/
theorem Np.transpose_row_length (X : List (List ℝ)) (row : List ℝ)
    (h : row ∈ Np.transpose X) : row.length = X.length := by
  unfold Np.transpose at h
  obtain ⟨j, hj, rfl⟩ := List.mem_map.1 h
  exact List.length_map _ _

/-- The transpose has one row per column of `X`. -/
theorem Np.transpose_length (X : List (List ℝ)) :
    (Np.transpose X).length = (X.headD []).length := by
  unfold Np.transpose
  simp

/-- `predict` on the linear trainer fails when some row of `X`
disagrees with the trained feature count. -/
theorem LinearRegressionNp.linPredict_shape_error (self : LinearRegressionNp)
    (coef : List ℝ) (bias : ℝ) (X : List (List ℝ)) (row : List ℝ)
    (hp : self.params = some (coef, bias)) (hrow : row ∈ X)
    (hlen : row.length ≠ coef.length) :
    ∃ e, self.predict X = Except.error e := by
  refine ⟨"matmul: input operand has a dimension mismatch", ?_⟩
  unfold LinearRegressionNp.predict
  rw [hp]
  dsimp only
  rw [Np.matVec_error X coef row hrow hlen]
  rfl

/-- `predict` on the logistic trainer fails when some row of `X`
disagrees with the trained feature count. -/
theorem LogisticRegressionNp.logPredict_shape_error (self : LogisticRegressionNp)
    (coef : List ℝ) (bias : ℝ) (X : List (List ℝ)) (row : List ℝ)
    (hp : self.params = some (coef, bias)) (hrow : row ∈ X)
    (hlen : row.length ≠ coef.length) :
    ∃ e, self.predict X = Except.error e := by
  refine ⟨"matmul: input operand has a dimension mismatch", ?_⟩
  unfold LogisticRegressionNp.predict
  rw [hp]
  dsimp only
  rw [Np.matVec_error X coef row hrow hlen]
  rfl

/-- C4 counterexample: calling the linear trainer's fit with a 5×1
design matrix and a length-1 target vector (mismatched row counts)
does not fail: numpy silently broadcasts y across the 5 predictions
and fit completes, contradicting the claim that every such call fails
with a descriptive error and never silently broadcasts. -/
theorem C4_counterexample :
    XexNp.length = 5 ∧ yexNp.length = 1 ∧
    ((LinearRegressionNp.fit (LinearRegressionNp.mk 1 1 none) XexNp yexNp).2).isOk
      = true :=
  ⟨rfl, rfl, rfl⟩

/-- The linear trainer's fit fails on rectangular X (n ≥ 1) whenever
the row counts of X and y disagree and y does not have numpy's
silently-broadcastable length 1. -/
theorem LinearRegressionNp.linFit_shape_error (self : LinearRegressionNp)
    (X : List (List ℝ)) (y : List ℝ)
    (hit : 1 ≤ self.max_iterations)
    (hrect : ∀ row ∈ X, row.length = (X.headD []).length)
    (hn : 1 ≤ (X.headD []).length)
    (hmy : X.length ≠ y.length) (hy1 : y.length ≠ 1) :
    ∃ e, (self.fit X y).2 = Except.error e := by
  obtain ⟨k, hk⟩ : ∃ k, self.max_iterations = k + 1 :=
    ⟨self.max_iterations - 1, (Nat.succ_pred_eq_of_pos hit).symm⟩
  have hmv : Np.matVec X (List.replicate (X.headD []).length 0) =
      Except.ok (X.map (fun row =>
        Np.dot row (List.replicate (X.headD []).length 0))) :=
    Np.matVec_ok _ _ (fun row hrow => by
      rw [List.length_replicate]
      exact hrect row hrow)
  suffices hloop : ∃ e, (LinearRegressionNp.fitLoop self.learning_rate X.length X y
      (k + 1) (List.replicate (X.headD []).length 0, 0) []).2 = Except.error e by
    obtain ⟨e, he⟩ := hloop
    refine ⟨e, ?_⟩
    unfold LinearRegressionNp.fit
    rw [hk]
    exact he
  by_cases hX1 : X.length = 1
  · obtain ⟨row0, hrow0⟩ := List.length_eq_one.1 hX1
    subst hrow0
    have hr1 : y.length ≠ 1 := hy1
    have htrow : ∃ trow, trow ∈ Np.transpose [row0] :=
      List.exists_mem_of_length_pos (by
        rw [Np.transpose_length]
        simpa using hn)
    obtain ⟨trow, htrowmem⟩ := htrow
    have htlen : trow.length = 1 := Np.transpose_row_length _ _ htrowmem
    have hmv2 : Np.matVec (Np.transpose [row0])
        (y.map (fun t => Np.dot row0 (List.replicate ([row0].headD []).length 0) + 0 - t))
        = Except.error "matmul: input operand has a dimension mismatch" :=
      Np.matVec_error _ _ trow htrowmem (by
        rw [htlen, List.length_map]
        exact fun h => hy1 h.symm)
    refine ⟨"matmul: input operand has a dimension mismatch", ?_⟩
    simp only [LinearRegressionNp.fitLoop, hmv, Np.addScalar,
      List.map_cons, List.map_nil, Np.sub]
    rw [Np.elemwise_single_left _ _ _ hy1]
    dsimp only
    rw [hmv2]
  · have hsub : Np.sub (Np.addScalar (X.map (fun row =>
        Np.dot row (List.replicate ((X.headD []).length) 0))) 0) y =
        Except.error "operands could not be broadcast together" := by
      unfold Np.sub
      refine Np.elemwise_error _ _ _ ?_ ?_ hy1
      · simpa [Np.addScalar] using hmy
      · simpa [Np.addScalar] using hX1
    refine ⟨"operands could not be broadcast together", ?_⟩
    simp only [LinearRegressionNp.fitLoop, hmv, hsub]

/-- Equal-length operands combine elementwise. -/
theorem Np.elemwise_eqlen (f : ℝ → ℝ → ℝ) (a b : List ℝ)
    (h : a.length = b.length) :
    Np.elemwise f a b = Except.ok (List.zipWith f a b) := by
  unfold Np.elemwise
  rw [if_pos h]

/-- The logistic trainer's fit fails on rectangular X (n ≥ 1) whenever
the row counts of X and y disagree and y does not have numpy's
silently-broadcastable length 1. -/
theorem LogisticRegressionNp.logFit_shape_error (self : LogisticRegressionNp)
    (X : List (List ℝ)) (y : List ℝ)
    (hit : 1 ≤ self.max_iterations)
    (hrect : ∀ row ∈ X, row.length = (X.headD []).length)
    (hn : 1 ≤ (X.headD []).length)
    (hmy : X.length ≠ y.length) (hy1 : y.length ≠ 1) :
    ∃ e, (self.fit X y).2 = Except.error e := by
  obtain ⟨k, hk⟩ : ∃ k, self.max_iterations = k + 1 :=
    ⟨self.max_iterations - 1, (Nat.succ_pred_eq_of_pos hit).symm⟩
  have hmv : Np.matVec X (List.replicate (X.headD []).length 0) =
      Except.ok (X.map (fun row =>
        Np.dot row (List.replicate (X.headD []).length 0))) :=
    Np.matVec_ok _ _ (fun row hrow => by
      rw [List.length_replicate]
      exact hrect row hrow)
  suffices hloop : ∃ e, (LogisticRegressionNp.fitLoop self.learning_rate X.length X y
      (k + 1) (List.replicate (X.headD []).length 0, 0) []).2 = Except.error e by
    obtain ⟨e, he⟩ := hloop
    refine ⟨e, ?_⟩
    unfold LogisticRegressionNp.fit
    rw [hk]
    exact he
  by_cases hX1 : X.length = 1
  · obtain ⟨row0, hrow0⟩ := List.length_eq_one.1 hX1
    subst hrow0
    obtain ⟨trow, htrowmem⟩ : ∃ trow, trow ∈ Np.transpose [row0] :=
      List.exists_mem_of_length_pos (by
        rw [Np.transpose_length]
        simpa using hn)
    have htlen : trow.length = 1 := Np.transpose_row_length _ _ htrowmem
    have hy1m : ∀ g : ℝ → ℝ, (y.map g).length ≠ 1 := fun g => by
      rw [List.length_map]
      exact hy1
    refine ⟨"matmul: input operand has a dimension mismatch", ?_⟩
    simp only [LogisticRegressionNp.fitLoop, hmv, Np.addScalar,
      List.map_cons, List.map_nil, Np.mul, Np.add, Np.sub]
    rw [Np.elemwise_single_right _ _ _ hy1]
    dsimp only
    rw [Np.elemwise_single_right _ _ _ (hy1m _)]
    dsimp only
    rw [Np.elemwise_eqlen _ _ _ (by simp)]
    dsimp only
    rw [Np.elemwise_single_left _ _ _ hy1]
    dsimp only
    rw [Np.matVec_error (Np.transpose [row0]) _ trow htrowmem (by
      rw [htlen, List.length_map]
      exact fun h => hy1 h.symm)]
  · have ht1 : Np.mul y ((Np.addScalar (X.map (fun row =>
        Np.dot row (List.replicate ((X.headD []).length) 0))) 0).map
          LogisticRegression.sigmoid |>.map Real.log) =
        Except.error "operands could not be broadcast together" := by
      unfold Np.mul
      refine Np.elemwise_error _ _ _ ?_ hy1 ?_
      · simpa [Np.addScalar] using fun h => hmy h.symm
      · simpa [Np.addScalar] using hX1
    refine ⟨"operands could not be broadcast together", ?_⟩
    simp only [LogisticRegressionNp.fitLoop, hmv, ht1]

/-- C4, amended: for both trainers, a predict call whose X has a row
disagreeing with the trained feature count fails with an error, and a
fit call (with at least one iteration, on a rectangular X with n ≥ 1)
whose X and y have mismatched row counts fails with an error — except
that numpy silently broadcasts a length-1 y across the m predictions,
so a fit with y of length 1 is not rejected (see `C4_counterexample`). -/
theorem C4_amended_shape_errors :
    (∀ (self : LinearRegressionNp) (X : List (List ℝ)) (y : List ℝ),
        1 ≤ self.max_iterations →
        (∀ row ∈ X, row.length = (X.headD []).length) →
        1 ≤ (X.headD []).length →
        X.length ≠ y.length → y.length ≠ 1 →
        ∃ e, (self.fit X y).2 = Except.error e) ∧
    (∀ (self : LogisticRegressionNp) (X : List (List ℝ)) (y : List ℝ),
        1 ≤ self.max_iterations →
        (∀ row ∈ X, row.length = (X.headD []).length) →
        1 ≤ (X.headD []).length →
        X.length ≠ y.length → y.length ≠ 1 →
        ∃ e, (self.fit X y).2 = Except.error e) ∧
    (∀ (self : LinearRegressionNp) (coef : List ℝ) (bias : ℝ)
        (X : List (List ℝ)) (row : List ℝ),
        self.params = some (coef, bias) → row ∈ X → row.length ≠ coef.length →
        ∃ e, self.predict X = Except.error e) ∧
    (∀ (self : LogisticRegressionNp) (coef : List ℝ) (bias : ℝ)
        (X : List (List ℝ)) (row : List ℝ),
        self.params = some (coef, bias) → row ∈ X → row.length ≠ coef.length →
        ∃ e, self.predict X = Except.error e) :=
  ⟨fun self X y => LinearRegressionNp.linFit_shape_error self X y,
   fun self X y => LogisticRegressionNp.logFit_shape_error self X y,
   fun self coef bias X row => LinearRegressionNp.linPredict_shape_error self coef bias X row,
   fun self coef bias X row => LogisticRegressionNp.logPredict_shape_error self coef bias X row⟩

/-- Witness for the amended C4 on concrete mismatched shapes: a 2×1
matrix with a length-3 target, and a predict whose row width 1
disagrees with the 2 trained features. -/
theorem C4_amended_witness :
    (∃ e, ((LinearRegressionNp.mk 1 1 none).fit XexNp2 yexNp3).2 = Except.error e) ∧
    (∃ e, (LinearRegressionNp.mk 1 1 (some ([1, 2], 0))).predict XexNp2
        = Except.error e) :=
  ⟨C4_amended_shape_errors.1 (LinearRegressionNp.mk 1 1 none) XexNp2 yexNp3
      (le_refl 1)
      (by intro row hrow; fin_cases hrow <;> simp [XexNp2])
      (by simp [XexNp2])
      (by simp [XexNp2, yexNp3])
      (by simp [yexNp3]),
   C4_amended_shape_errors.2.2.1 (LinearRegressionNp.mk 1 1 (some ([1, 2], 0)))
      [1, 2] 0 XexNp2 [1] rfl (by simp [XexNp2]) (by simp)⟩

/-- Distributing a linear combination out of a sum. -/
theorem sum_mul_sub {n : ℕ} (u v s : Fin n → ℝ) (c : ℝ) :
    (∑ j, u j * (v j - c * s j)) = (∑ j, u j * v j) - c * ∑ j, u j * s j := by
  rw [Finset.mul_sum, ← Finset.sum_sub_distrib]
  exact Finset.sum_congr rfl fun j _ => by ring

namespace LinearRegression

/-- The residual after one spec update, in closed form: each component
moves by `lr/m` times the matrix applied to the gradient direction. -/
theorem resid_specStep {m n : ℕ} (X : Fin m → Fin n → ℝ) (y : Fin m → ℝ)
    (lr : ℝ) (w : Fin n → ℝ) (b : ℝ) (i : Fin m) :
    resid X y (specStep lr X y (w, b)) i =
      resid X y (w, b) i -
        lr / m * ((∑ j, X i j * (∑ i2, X i2 j * resid X y (w, b) i2)) +
          ∑ i2, resid X y (w, b) i2) := by
  simp only [resid, specStep, Fmean]
  rw [sum_mul_sub (fun j => X i j) w
    (fun j => ∑ i2, X i2 j * ((∑ j2, X i2 j2 * w j2) + b - y i2)) (lr / m)]
  ring

end LinearRegression

/-- Expansion of the squared move `(r − cU)²` summed over samples. -/
theorem sum_sq_sub_expand {m : ℕ} (r U : Fin m → ℝ) (c : ℝ) :
    (∑ i, (r i - c * U i) ^ 2) =
      (∑ i, r i ^ 2) - 2 * c * (∑ i, r i * U i) + c ^ 2 * (∑ i, U i ^ 2) := by
  rw [Finset.sum_congr rfl fun i _ =>
    show (r i - c * U i) ^ 2 = r i ^ 2 - 2 * c * (r i * U i) + c ^ 2 * U i ^ 2 from by
      ring]
  rw [Finset.sum_add_distrib, Finset.sum_sub_distrib, ← Finset.mul_sum,
    ← Finset.mul_sum]

/-- The inner product of the residual with the gradient direction is
the squared norm of the gradient (up to the `m` scaling):
`∑ᵢ rᵢ·((X·(Xᵗr))ᵢ + Σr) = ‖Xᵗr‖² + (Σr)²`. -/
theorem sum_resid_mul_dir {m n : ℕ} (X : Fin m → Fin n → ℝ) (r : Fin m → ℝ) :
    (∑ i, r i * ((∑ j, X i j * (∑ i2, X i2 j * r i2)) + ∑ i2, r i2))
      = (∑ j, (∑ i2, X i2 j * r i2) ^ 2) + (∑ i2, r i2) ^ 2 := by
  simp only [mul_add, Finset.sum_add_distrib]
  congr 1
  · calc (∑ i, r i * ∑ j, X i j * (∑ i2, X i2 j * r i2))
        = ∑ i, ∑ j, r i * (X i j * (∑ i2, X i2 j * r i2)) :=
          Finset.sum_congr rfl fun i _ => Finset.mul_sum _ _ _
      _ = ∑ j, ∑ i, r i * (X i j * (∑ i2, X i2 j * r i2)) := Finset.sum_comm
      _ = ∑ j, (∑ i, X i j * r i) * (∑ i2, X i2 j * r i2) := by
          refine Finset.sum_congr rfl fun j _ => ?_
          rw [Finset.sum_mul]
          exact Finset.sum_congr rfl fun i _ => by ring
      _ = ∑ j, (∑ i2, X i2 j * r i2) ^ 2 := by
          refine Finset.sum_congr rfl fun j _ => ?_
          rw [sq]
  · rw [sq, ← Finset.sum_mul]

/-- Frobenius bound on the squared norm of the gradient direction. -/
theorem sum_dir_sq_le {m n : ℕ} (X : Fin m → Fin n → ℝ) (r : Fin m → ℝ) :
    (∑ i, ((∑ j, X i j * (∑ i2, X i2 j * r i2)) + ∑ i2, r i2) ^ 2)
      ≤ 2 * (frobSq X + m) *
        ((∑ j, (∑ i2, X i2 j * r i2) ^ 2) + (∑ i2, r i2) ^ 2) := by
  have hQw : (0:ℝ) ≤ ∑ j, (∑ i2, X i2 j * r i2) ^ 2 :=
    Finset.sum_nonneg fun j _ => sq_nonneg _
  have hF : (0:ℝ) ≤ frobSq X :=
    Finset.sum_nonneg fun i _ => Finset.sum_nonneg fun j _ => sq_nonneg _
  have hstep : ∀ i : Fin m,
      ((∑ j, X i j * (∑ i2, X i2 j * r i2)) + ∑ i2, r i2) ^ 2 ≤
        2 * ((∑ j, X i j ^ 2) * ∑ j, (∑ i2, X i2 j * r i2) ^ 2) +
          2 * (∑ i2, r i2) ^ 2 := by
    intro i
    have hcs := Finset.sum_mul_sq_le_sq_mul_sq Finset.univ (X i)
      (fun j => ∑ i2, X i2 j * r i2)
    nlinarith [sq_nonneg ((∑ j, X i j * (∑ i2, X i2 j * r i2)) - ∑ i2, r i2)]
  calc (∑ i, ((∑ j, X i j * (∑ i2, X i2 j * r i2)) + ∑ i2, r i2) ^ 2)
      ≤ ∑ i : Fin m, (2 * ((∑ j, X i j ^ 2) * ∑ j, (∑ i2, X i2 j * r i2) ^ 2) +
          2 * (∑ i2, r i2) ^ 2) := Finset.sum_le_sum fun i _ => hstep i
    _ = 2 * (∑ j, (∑ i2, X i2 j * r i2) ^ 2) * frobSq X +
          m * (2 * (∑ i2, r i2) ^ 2) := by
        rw [Finset.sum_add_distrib, Finset.sum_const, Finset.card_univ,
          Fintype.card_fin, nsmul_eq_mul]
        unfold frobSq
        congr 1
        conv_rhs => rw [Finset.mul_sum]
        exact Finset.sum_congr rfl fun i _ => by ring
    _ ≤ 2 * (frobSq X + m) *
          ((∑ j, (∑ i2, X i2 j * r i2) ^ 2) + (∑ i2, r i2) ^ 2) := by
        have hm0 : (0:ℝ) ≤ m := Nat.cast_nonneg m
        nlinarith [mul_nonneg hF (sq_nonneg (∑ i2, r i2)),
          mul_nonneg hm0 hQw]

/-- Key inequality: one gradient move with step `lr ≤ lrBound X` does
not increase the squared residual norm. -/
theorem descent_key {m n : ℕ} (hm : 1 ≤ m) (X : Fin m → Fin n → ℝ)
    (r : Fin m → ℝ) (lr : ℝ) (h0 : 0 ≤ lr) (hB : lr ≤ lrBound X) :
    (∑ i, (r i - lr / m *
        ((∑ j, X i j * (∑ i2, X i2 j * r i2)) + ∑ i2, r i2)) ^ 2)
      ≤ ∑ i, r i ^ 2 := by
  have hm0 : (0:ℝ) < m := by exact_mod_cast hm
  have hF : (0:ℝ) ≤ frobSq X :=
    Finset.sum_nonneg fun i _ => Finset.sum_nonneg fun j _ => sq_nonneg _
  have hFm : (0:ℝ) < frobSq X + m := by linarith
  have hc : (0:ℝ) ≤ lr / m := div_nonneg h0 (le_of_lt hm0)
  have hcFm : lr / m * (frobSq X + m) ≤ 1 := by
    rw [div_mul_eq_mul_div, div_le_one hm0]
    calc lr * (frobSq X + m) ≤ lrBound X * (frobSq X + m) :=
          mul_le_mul_of_nonneg_right hB (le_of_lt hFm)
      _ = m := by
          unfold lrBound
          field_simp
  have hQ : (0:ℝ) ≤ (∑ j, (∑ i2, X i2 j * r i2) ^ 2) + (∑ i2, r i2) ^ 2 :=
    add_nonneg (Finset.sum_nonneg fun j _ => sq_nonneg _) (sq_nonneg _)
  rw [sum_sq_sub_expand r
    (fun i => (∑ j, X i j * (∑ i2, X i2 j * r i2)) + ∑ i2, r i2) (lr / m)]
  rw [sum_resid_mul_dir X r]
  have hU := sum_dir_sq_le X r
  have h1 : (lr / m) ^ 2 *
      (∑ i, ((∑ j, X i j * (∑ i2, X i2 j * r i2)) + ∑ i2, r i2) ^ 2) ≤
      (lr / m) ^ 2 * (2 * (frobSq X + m) *
        ((∑ j, (∑ i2, X i2 j * r i2) ^ 2) + (∑ i2, r i2) ^ 2)) :=
    mul_le_mul_of_nonneg_left hU (sq_nonneg _)
  nlinarith [mul_nonneg hc hQ,
    mul_le_mul_of_nonneg_left hcFm (mul_nonneg hc hQ)]

namespace LinearRegression

/-- The spec loss as a scaled squared residual norm. -/
theorem specLoss_eq_sumSq {m n : ℕ} (X : Fin m → Fin n → ℝ) (y : Fin m → ℝ)
    (wb : (Fin n → ℝ) × ℝ) :
    specLoss X y wb = (∑ i, resid X y wb i ^ 2) / (2 * m) := by
  unfold specLoss Fmean resid
  ring

/-- One spec update with learning rate at most `lrBound X` does not
increase the spec loss. -/
theorem specLoss_specStep_le {m n : ℕ} (hm : 1 ≤ m) (X : Fin m → Fin n → ℝ)
    (y : Fin m → ℝ) (lr : ℝ) (h0 : 0 ≤ lr) (hB : lr ≤ lrBound X)
    (wb : (Fin n → ℝ) × ℝ) :
    specLoss X y (specStep lr X y wb) ≤ specLoss X y wb := by
  obtain ⟨w, b⟩ := wb
  rw [specLoss_eq_sumSq, specLoss_eq_sumSq]
  have hm0 : (0:ℝ) < 2 * m := by
    have : (0:ℝ) < m := by exact_mod_cast hm
    linarith
  refine (div_le_div_iff_of_pos_right hm0).mpr ?_
  rw [Finset.sum_congr rfl fun i _ =>
    congrArg (· ^ 2) (resid_specStep X y lr w b i)]
  exact descent_key hm X (resid X y (w, b)) lr h0 hB

end LinearRegression

/-- C9: for every design matrix X and target vector y (m ≥ 1) there is
a positive learning-rate bound, depending only on X, such that for
every learning rate below that bound the loss trace returned by the
linear trainer's fit is non-increasing: losses[i+1] ≤ losses[i]
whenever i+1 < max_iterations. -/
theorem C9_small_lr_trace_nonincreasing {m n : ℕ} (X : Fin m → Fin n → ℝ)
    (y : Fin m → ℝ) (hm : 1 ≤ m) :
    ∃ B : ℝ, 0 < B ∧ ∀ (self : LinearRegression),
      0 < self.learning_rate → self.learning_rate < B →
      ∀ i : ℕ, i + 1 < self.max_iterations →
        (self.fit X y).1.getD (i + 1) 0 ≤ (self.fit X y).1.getD i 0 := by
  have hm0 : (0:ℝ) < m := by exact_mod_cast hm
  have hF : (0:ℝ) ≤ frobSq X :=
    Finset.sum_nonneg fun i _ => Finset.sum_nonneg fun j _ => sq_nonneg _
  refine ⟨lrBound X, by unfold lrBound; exact div_pos hm0 (by linarith), ?_⟩
  intro self hlr hlrB i hi
  rw [LinearRegression.linFit_eq]
  dsimp only
  have hget : ∀ t, t < self.max_iterations →
      ((List.range self.max_iterations).map
        (fun t2 => LinearRegression.specLoss X y
          (LinearRegression.specState self.learning_rate X y t2))).getD t 0 =
        LinearRegression.specLoss X y
          (LinearRegression.specState self.learning_rate X y t) := by
    intro t ht
    rw [List.getD_eq_getElem?_getD, List.getElem?_map, List.getElem?_range ht]
    rfl
  rw [hget _ hi, hget _ (by omega)]
  have hstep : LinearRegression.specState self.learning_rate X y (i + 1) =
      LinearRegression.specStep self.learning_rate X y
        (LinearRegression.specState self.learning_rate X y i) := by
    unfold LinearRegression.specState
    rw [Function.iterate_succ_apply']
  rw [hstep]
  exact LinearRegression.specLoss_specStep_le hm X y self.learning_rate
    (le_of_lt hlr) (le_of_lt hlrB) _

/-- Witness for C9 at a concrete 1×1 design matrix and target. -/
theorem C9_witness :
    ∃ B : ℝ, 0 < B ∧ ∀ (self : LinearRegression),
      0 < self.learning_rate → self.learning_rate < B →
      ∀ i : ℕ, i + 1 < self.max_iterations →
        (self.fit Xex yex).1.getD (i + 1) 0 ≤ (self.fit Xex yex).1.getD i 0 :=
  C9_small_lr_trace_nonincreasing Xex yex (le_refl 1)

/-- C5 counterexample: a fit call aborted by a shape error (here a 2×1
X against a length-3 y) leaves the instance with fit entered but not
returned (the spec's FITTING state), yet with the zero-initialized
parameters already assigned by `initialize` at fit entry; a subsequent
predict does not fail with a state error — it silently returns
X·0 + 0 = [0, 0], predictions from implicitly zero parameters. -/
theorem C5_counterexample :
    ((LinearRegressionNp.mk 1 1 none).fit XexNp2 yexNp3).2.isOk = false ∧
    ((LinearRegressionNp.mk 1 1 none).fit XexNp2 yexNp3).1.params
      = some ([0], 0) ∧
    ((LinearRegressionNp.mk 1 1 none).fit XexNp2 yexNp3).1.predict XexNp2
      = Except.ok [0, 0] := by
  refine ⟨rfl, rfl, ?_⟩
  norm_num [LinearRegressionNp.fit, LinearRegressionNp.fitLoop,
    LinearRegressionNp.predict, XexNp2, yexNp3, Np.matVec, Np.sub,
    Np.elemwise, Np.addScalar, Np.dot, Np.transpose, Np.mean]
  rfl
